import Mathlib

/-!
Shallow embedding of `seekinghttp.go` (package seekinghttp), which exposes a
remote HTTP resource as an `io.ReadSeeker` / `io.ReaderAt` using GET requests
with `Range` headers and a single read-ahead cache window.

Modelling choices:
- Go `int64` / `int` values are modelled as `Int` (the claims under study never
  exercise 64-bit overflow).
- The injected `HttpClient` is a function `Request → Option Response`;
  `none` models `Client.Do` returning a transport error.
- A response body is a `List Nat` of bytes; draining the body always succeeds
  and `bytes.Buffer.ReadFrom` returns the body length.  Per the interface
  contract, a negative `contentLength` means the header was absent.
- Errors are an inductive `RError`; `io.EOF` is `RError.eof`,
  `os.ErrInvalid` is `RError.errInvalid`.
- Each operation returns, besides its Go results, the updated receiver state
  and the list of transport requests it dispatched (so that "number of
  transport invocations" is observable).
-/

/-- Model of an outgoing `http.Request`: method plus optional Range header. -/
structure Request where
  method : String
  rangeHeader : Option String
deriving DecidableEq, Repr

/-- Model of an `http.Response`: status code, `ContentLength` field
(negative means absent/unknown), and the body bytes. -/
structure Response where
  statusCode : Int
  contentLength : Int
  body : List Nat
deriving DecidableEq, Repr

/-- Errors produced by the package (plus transport-level failure). -/
inductive RError where
  | eof
  | errInvalid
  | transportFailed
  | contentLengthMismatch (n contentLength : Int)
  | noContentLengthForSize
deriving DecidableEq, Repr

/-- The mutable state of a `SeekingHTTP` value: public configuration fields
`URL`, `MinFetch`, `KnownSize` and the private fields `offset` (the cursor),
`last` (the cache window buffer, `none` when the Go pointer is nil) and
`lastOffset` (the starting offset of the window). -/
structure SeekingHTTP where
  URL : String
  MinFetch : Int
  KnownSize : Option Int
  offset : Int
  last : Option (List Nat)
  lastOffset : Int
deriving DecidableEq, Repr

/-- Go `copy(dst, src)`: overwrite the first `min |dst| |src|` entries of
`dst` with those of `src`, keeping the rest of `dst`. -/
def goCopy (dst src : List Nat) : List Nat :=
  let k := min dst.length src.length
  src.take k ++ dst.drop k

/-- Go slice expression `l[lo:hi]` (on the in-range indices used by the code). -/
def listSlice (l : List Nat) (lo hi : Int) : List Nat :=
  (l.take hi.toNat).drop lo.toNat

/-- `fmtRange` from the source: the `Range` header value for a fetch of `l`
bytes starting at `frm` (`bytes=frm-frm` when `l = 0`). -/
def fmtRange (frm l : Int) : String :=
  let toByte := if l = 0 then frm else frm + (l - 1)
  "bytes=" ++ toString frm ++ "-" ++ toString toByte

/-- The GET request built by `newReq` with the `Range` header added by
`ReadAtWithLength`. -/
def mkRangeReq (off length : Int) : Request :=
  { method := "GET", rangeHeader := some (fmtRange off length) }

/-- The effective length of a positional read: the requested length is raised
to at least `MinFetch` when `MinFetch` is non-zero (source lines 114-117),
then capped to `KnownSize - off` when the size is known (lines 119-121). -/
def effLen (s : SeekingHTTP) (off length0 : Int) : Int :=
  let length1 := if s.MinFetch ≠ 0 then max length0 s.MinFetch else length0
  match s.KnownSize with
  | some size => min (size - off) length1
  | none => length1

/-- The cache-window containment test of source lines 127-129: a window
exists, `off >= s.lastOffset`, and `off + length <= s.lastOffset + |window|`. -/
def isCacheHit (s : SeekingHTTP) (off length : Int) : Bool :=
  match s.last with
  | some w => decide (s.lastOffset ≤ off) && decide (off + length ≤ s.lastOffset + (w.length : Int))
  | none => false

/-- Result of a positional read: the returned count `n`, the returned error,
the destination buffer after the call, the updated receiver state, and the
transport requests dispatched during the call. -/
structure RAResult where
  n : Int
  err : Option RError
  buf : List Nat
  state : SeekingHTTP
  reqs : List Request
deriving DecidableEq, Repr

/-- Cache-hit branch of `ReadAtWithLength` (source lines 127-136): copy the
requested slice out of the window and return `min |buf| length` with no
request dispatched. -/
def cacheHitResult (s : SeekingHTTP) (buf : List Nat) (off length : Int) : RAResult :=
  let w := s.last.getD []
  let start := off - s.lastOffset
  ⟨min (buf.length : Int) length, none,
   goCopy buf (listSlice w start (off + length - s.lastOffset)), s, []⟩

/-- Cache-miss branch of `ReadAtWithLength` (source lines 147-220): dispatch a
GET with the formatted `Range` header and interpret the response.  On status
200/206 the body replaces the cache window at `lastOffset = off`; a non-zero
`ContentLength` disagreeing with the body length is a hard error; a zero
`ContentLength` falls back to the body length; a 200 status with previously
unknown size records `KnownSize`; any other status yields `io.EOF`. -/
def dispatchFetch (client : Request → Option Response) (s : SeekingHTTP)
    (buf : List Nat) (off length : Int) : RAResult :=
  let req := mkRangeReq off length
  match client req with
  | none => ⟨0, some .transportFailed, buf, s, [req]⟩
  | some resp =>
    if resp.statusCode = 200 ∨ resp.statusCode = 206 then
      let s1 := { s with lastOffset := off, last := some resp.body }
      let n := (resp.body.length : Int)
      if resp.contentLength = 0 then
        ⟨min (min n length) (buf.length : Int), none, goCopy buf resp.body, s1, [req]⟩
      else if n ≠ resp.contentLength then
        ⟨0, some (.contentLengthMismatch n resp.contentLength), buf, s1, [req]⟩
      else
        let s2 := if resp.statusCode = 200 ∧ s.KnownSize = none
                  then { s1 with KnownSize := some resp.contentLength } else s1
        ⟨min (min resp.contentLength length) (buf.length : Int), none,
         goCopy buf resp.body, s2, [req]⟩
    else
      ⟨0, some .eof, buf, s, [req]⟩

/-- `ReadAtWithLength(buf, off, length0)`: negative offset yields `io.EOF`
immediately; the effective length is computed by amplification then clamping;
a negative clamped length (only possible when the size is known) yields
`io.EOF`; otherwise the cache window is consulted and, on a miss, a range
request is dispatched. -/
def ReadAtWithLength (client : Request → Option Response) (s : SeekingHTTP)
    (buf : List Nat) (off length0 : Int) : RAResult :=
  if off < 0 then ⟨0, some .eof, buf, s, []⟩
  else
    let length := effLen s off length0
    if s.KnownSize.isSome ∧ length < 0 then ⟨0, some .eof, buf, s, []⟩
    else if isCacheHit s off length then cacheHitResult s buf off length
    else dispatchFetch client s buf off length

/-- `ReadAt(buf, off)`: `ReadAtWithLength` with `length = len(buf)`, the count
capped to `len(buf)`, and a short error-free read turned into `io.EOF`. -/
def ReadAt (client : Request → Option Response) (s : SeekingHTTP)
    (buf : List Nat) (off : Int) : RAResult :=
  let r := ReadAtWithLength client s buf off (buf.length : Int)
  let n1 := min (buf.length : Int) r.n
  let err1 := if n1 ≠ (buf.length : Int) ∧ r.err = none then some RError.eof else r.err
  { r with n := n1, err := err1 }

/-- `Read(buf)`: `ReadAt` at the current cursor; on success the cursor
advances by the returned count. -/
def Read (client : Request → Option Response) (s : SeekingHTTP)
    (buf : List Nat) : RAResult :=
  let r := ReadAt client s buf s.offset
  if r.err = none then
    { r with state := { r.state with offset := r.state.offset + r.n } }
  else r

/-- Result of `Seek` or `Size`: the returned value, error, updated state, and
dispatched requests. -/
structure SeekResult where
  n : Int
  err : Option RError
  state : SeekingHTTP
  reqs : List Request
deriving DecidableEq, Repr

/-- `Size()`: return `KnownSize` with no request when set; otherwise issue a
HEAD request, reject a negative `ContentLength`, and record the size. -/
def Size (client : Request → Option Response) (s : SeekingHTTP) : SeekResult :=
  match s.KnownSize with
  | some size => ⟨size, none, s, []⟩
  | none =>
    let req : Request := { method := "HEAD", rangeHeader := none }
    match client req with
    | none => ⟨0, some .transportFailed, s, [req]⟩
    | some resp =>
      if resp.contentLength < 0 then ⟨0, some .noContentLengthForSize, s, [req]⟩
      else ⟨resp.contentLength, none,
            { s with KnownSize := some resp.contentLength }, [req]⟩

/-- `Seek(offset, whence)`: whence 0 sets the cursor, 1 shifts it, 2 resolves
the total size (via `Size` when unknown), assigns `size + offset` to the
cursor and then rejects an out-of-range cursor with `io.EOF`; any other
whence yields `os.ErrInvalid`. -/
def Seek (client : Request → Option Response) (s : SeekingHTTP)
    (offset whence : Int) : SeekResult :=
  if whence = 0 then
    let s1 := { s with offset := offset }
    ⟨s1.offset, none, s1, []⟩
  else if whence = 1 then
    let s1 := { s with offset := s.offset + offset }
    ⟨s1.offset, none, s1, []⟩
  else if whence = 2 then
    match s.KnownSize with
    | some length =>
      let s1 := { s with offset := length + offset }
      if s1.offset > length ∨ s1.offset < 0 then ⟨0, some .eof, s1, []⟩
      else ⟨s1.offset, none, s1, []⟩
    | none =>
      let r := Size client s
      match r.err with
      | some e => ⟨0, some e, r.state, r.reqs⟩
      | none =>
        let length := r.n
        let s1 : SeekingHTTP := { r.state with offset := length + offset }
        if s1.offset > length ∨ s1.offset < 0 then ⟨0, some .eof, s1, r.reqs⟩
        else ⟨s1.offset, none, s1, r.reqs⟩
  else ⟨0, some .errInvalid, s, []⟩

/-! ### Basic characterization lemmas -/

theorem isCacheHit_none {s : SeekingHTTP} {off l : Int} (h : s.last = none) :
    isCacheHit s off l = false := by
  simp [isCacheHit, h]

theorem isCacheHit_some {s : SeekingHTTP} {off l : Int} {w : List Nat} (h : s.last = some w) :
    (isCacheHit s off l = true ↔
      (s.lastOffset ≤ off ∧ off + l ≤ s.lastOffset + (w.length : Int))) := by
  simp [isCacheHit, h]

theorem ReadAtWithLength_eq_hit {client : Request → Option Response} {s : SeekingHTTP}
    {buf : List Nat} {off length0 : Int}
    (h0 : ¬ off < 0)
    (hcl : ¬ (s.KnownSize.isSome ∧ effLen s off length0 < 0))
    (hhit : isCacheHit s off (effLen s off length0) = true) :
    ReadAtWithLength client s buf off length0 =
      cacheHitResult s buf off (effLen s off length0) := by
  unfold ReadAtWithLength
  rw [if_neg h0, if_neg hcl, if_pos hhit]

theorem ReadAtWithLength_eq_dispatch {client : Request → Option Response} {s : SeekingHTTP}
    {buf : List Nat} {off length0 : Int}
    (h0 : ¬ off < 0)
    (hcl : ¬ (s.KnownSize.isSome ∧ effLen s off length0 < 0))
    (hmiss : isCacheHit s off (effLen s off length0) = false) :
    ReadAtWithLength client s buf off length0 =
      dispatchFetch client s buf off (effLen s off length0) := by
  unfold ReadAtWithLength
  rw [if_neg h0, if_neg hcl, hmiss]
  simp

theorem dispatchFetch_reqs (client : Request → Option Response) (s : SeekingHTTP)
    (buf : List Nat) (off l : Int) :
    (dispatchFetch client s buf off l).reqs = [mkRangeReq off l] := by
  cases hc : client (mkRangeReq off l) with
  | none => simp [dispatchFetch, hc]
  | some resp =>
    simp only [dispatchFetch, hc]
    split
    · split
      · rfl
      · split
        · rfl
        · rfl
    · rfl

theorem ReadAt_reqs (client : Request → Option Response) (s : SeekingHTTP)
    (buf : List Nat) (off : Int) :
    (ReadAt client s buf off).reqs =
      (ReadAtWithLength client s buf off (buf.length : Int)).reqs := rfl

theorem ReadAt_state (client : Request → Option Response) (s : SeekingHTTP)
    (buf : List Nat) (off : Int) :
    (ReadAt client s buf off).state =
      (ReadAtWithLength client s buf off (buf.length : Int)).state := rfl

theorem dispatchFetch_KnownSize {client : Request → Option Response} {s : SeekingHTTP}
    {buf : List Nat} {off l S : Int} (hS : s.KnownSize = some S) :
    (dispatchFetch client s buf off l).state.KnownSize = some S := by
  cases hc : client (mkRangeReq off l) with
  | none => simp [dispatchFetch, hc, hS]
  | some resp =>
    simp only [dispatchFetch, hc]
    split
    · split
      · exact hS
      · split
        · exact hS
        · simp [hS]
    · exact hS

theorem ReadAtWithLength_KnownSize {client : Request → Option Response} {s : SeekingHTTP}
    {buf : List Nat} {off length0 S : Int} (hS : s.KnownSize = some S) :
    (ReadAtWithLength client s buf off length0).state.KnownSize = some S := by
  simp only [ReadAtWithLength]
  split
  · exact hS
  · split
    · exact hS
    · split
      · exact hS
      · exact dispatchFetch_KnownSize hS

/-- C7: once `KnownSize` is set to `S`, no operation — positional read
(`ReadAtWithLength` / `ReadAt`), sequential `Read`, `Seek` with any whence,
or `Size` — ever changes it, and `Size` returns the stored value with no
transport request. -/
theorem C7_knownSize_immutable :
    ∀ (client : Request → Option Response) (s : SeekingHTTP) (buf : List Nat)
      (off length0 whence S : Int),
      s.KnownSize = some S →
      (ReadAtWithLength client s buf off length0).state.KnownSize = some S ∧
      (ReadAt client s buf off).state.KnownSize = some S ∧
      (Read client s buf).state.KnownSize = some S ∧
      (Seek client s off whence).state.KnownSize = some S ∧
      Size client s = ⟨S, none, s, []⟩ := by
  intro client s buf off length0 whence S hS
  have h1 : ∀ (b : List Nat) (o l : Int),
      (ReadAtWithLength client s b o l).state.KnownSize = some S :=
    fun b o l => ReadAtWithLength_KnownSize hS
  have h2 : ∀ (b : List Nat) (o : Int), (ReadAt client s b o).state.KnownSize = some S := by
    intro b o
    rw [ReadAt_state]
    exact h1 b o (b.length : Int)
  refine ⟨h1 buf off length0, h2 buf off, ?_, ?_, by simp [Size, hS]⟩
  · simp only [Read]
    split
    · exact h2 buf s.offset
    · exact h2 buf s.offset
  · simp only [Seek]
    split
    · exact hS
    · split
      · exact hS
      · split
        · simp only [hS]
          split
          · rfl
          · rfl
        · exact hS

/-- C7 witness: a concrete instantiation of the immutability statement. -/
theorem C7_witness :
    let client : Request → Option Response := fun _ => some ⟨200, 3, [1, 2, 3]⟩
    let s : SeekingHTTP := ⟨"u", 0, some 5, 0, none, 0⟩
    (ReadAtWithLength client s [0] 0 1).state.KnownSize = some 5 ∧
    (ReadAt client s [0] 0).state.KnownSize = some 5 ∧
    (Read client s [0]).state.KnownSize = some 5 ∧
    (Seek client s 0 2).state.KnownSize = some 5 ∧
    Size client s = ⟨5, none, s, []⟩ := by
  intro client s
  exact C7_knownSize_immutable client s [0] 0 1 2 5 rfl

/-- C8: a positional read that dispatches a request and receives a response
whose status is neither 200 nor 206 returns `(0, io.EOF)` — the end-of-data
sentinel, not a hard error. -/
theorem C8_other_status_eof :
    ∀ (client : Request → Option Response) (s : SeekingHTTP) (buf : List Nat)
      (off length0 : Int) (resp : Response),
      0 ≤ off → isCacheHit s off (effLen s off length0) = false →
      ¬ (s.KnownSize.isSome ∧ effLen s off length0 < 0) →
      client (mkRangeReq off (effLen s off length0)) = some resp →
      resp.statusCode ≠ 200 → resp.statusCode ≠ 206 →
      (ReadAtWithLength client s buf off length0).n = 0 ∧
      (ReadAtWithLength client s buf off length0).err = some RError.eof := by
  intro client s buf off length0 resp h0 hl hcl hc h200 h206
  rw [ReadAtWithLength_eq_dispatch (not_lt.2 h0) hcl hl]
  simp [dispatchFetch, hc, h200, h206]

/-- C8 witness: a 404 response yields `(0, io.EOF)`. -/
theorem C8_witness :
    (ReadAtWithLength (fun _ => some ⟨404, 0, []⟩) ⟨"u", 0, none, 0, none, 0⟩ [0, 0] 0 2).n = 0 ∧
    (ReadAtWithLength (fun _ => some ⟨404, 0, []⟩) ⟨"u", 0, none, 0, none, 0⟩ [0, 0] 0 2).err =
      some RError.eof :=
  C8_other_status_eof (fun _ => some ⟨404, 0, []⟩) ⟨"u", 0, none, 0, none, 0⟩ [0, 0] 0 2
    ⟨404, 0, []⟩ (by decide) (by decide) (by decide) rfl (by decide) (by decide)

/-- C10: `Seek` with a whence value other than 0, 1, 2 returns
`(0, os.ErrInvalid)` and leaves the whole state — in particular the cursor —
unchanged. -/
theorem C10_invalid_whence :
    ∀ (client : Request → Option Response) (s : SeekingHTTP) (offset whence : Int),
      whence ≠ 0 → whence ≠ 1 → whence ≠ 2 →
      Seek client s offset whence = ⟨0, some RError.errInvalid, s, []⟩ := by
  intro client s offset whence h0 h1 h2
  simp [Seek, h0, h1, h2]

/-- C10 witness: whence 3 on a concrete state. -/
theorem C10_witness :
    Seek (fun _ => none) ⟨"u", 0, none, 7, none, 0⟩ 5 3 =
      ⟨0, some RError.errInvalid, ⟨"u", 0, none, 7, none, 0⟩, []⟩ :=
  C10_invalid_whence (fun _ => none) ⟨"u", 0, none, 7, none, 0⟩ 5 3
    (by decide) (by decide) (by decide)

theorem cacheHitResult_n (s : SeekingHTTP) (buf : List Nat) (off l : Int) :
    (cacheHitResult s buf off l).n = min (buf.length : Int) l := rfl

theorem dispatchFetch_n_le {client : Request → Option Response} {s : SeekingHTTP}
    {buf : List Nat} {off l : Int} (hl : 0 ≤ l) :
    (dispatchFetch client s buf off l).n ≤ l := by
  cases hc : client (mkRangeReq off l) with
  | none => simpa [dispatchFetch, hc] using hl
  | some resp =>
    simp only [dispatchFetch, hc]
    split
    · split
      · exact le_trans (min_le_left _ _) (min_le_right _ _)
      · split
        · simpa using hl
        · exact le_trans (min_le_left _ _) (min_le_right _ _)
    · simpa using hl

/-- C2: with a known size `S` and non-negative offset, the effective length is
the amplification `max length0 MinFetch` (when `MinFetch` is non-zero) clamped
to `S - off`; a negative clamped length aborts with `(0, io.EOF)` touching
neither the state nor the transport; any dispatched request carries exactly
the clamped effective length; and the returned count never exceeds
`S - off`. -/
theorem C2_amplify_clamp :
    ∀ (client : Request → Option Response) (s : SeekingHTTP) (buf : List Nat)
      (off length0 S : Int),
      s.KnownSize = some S → 0 ≤ off →
      (s.MinFetch ≠ 0 → effLen s off length0 = min (S - off) (max length0 s.MinFetch)) ∧
      (effLen s off length0 < 0 →
        ReadAtWithLength client s buf off length0 = ⟨0, some RError.eof, buf, s, []⟩) ∧
      ((ReadAtWithLength client s buf off length0).reqs = [] ∨
        (ReadAtWithLength client s buf off length0).reqs =
          [mkRangeReq off (effLen s off length0)]) ∧
      (off ≤ S → (ReadAtWithLength client s buf off length0).n ≤ S - off) := by
  intro client s buf off length0 S hS h0
  have hEle : effLen s off length0 ≤ S - off := by
    simp only [effLen, hS]
    exact min_le_left _ _
  refine ⟨?_, ?_, ?_, ?_⟩
  · intro hM
    simp [effLen, hS, hM]
  · intro hneg
    have hcond : s.KnownSize.isSome ∧ effLen s off length0 < 0 := ⟨by simp [hS], hneg⟩
    simp only [ReadAtWithLength]
    rw [if_neg (not_lt.2 h0), if_pos hcond]
  · simp only [ReadAtWithLength]
    split
    · exact Or.inl rfl
    · split
      · exact Or.inl rfl
      · split
        · exact Or.inl rfl
        · exact Or.inr (dispatchFetch_reqs client s buf off _)
  · intro hoffS
    simp only [ReadAtWithLength]
    rw [if_neg (not_lt.2 h0)]
    split
    · show (0 : Int) ≤ S - off
      omega
    · next hcl =>
      have hE0 : 0 ≤ effLen s off length0 := by
        by_contra hneg
        exact hcl ⟨by simp [hS], by omega⟩
      split
      · exact le_trans (min_le_right _ _) hEle
      · exact le_trans (dispatchFetch_n_le hE0) hEle

/-- C2 witness: concrete instantiation with `S = 10`, `off = 3`,
`length0 = 2`, `MinFetch = 4`. -/
theorem C2_witness :
    let client : Request → Option Response := fun _ => some ⟨206, 4, [7, 7, 7, 7]⟩
    let s : SeekingHTTP := ⟨"u", 4, some 10, 0, none, 0⟩
    ((4 : Int) ≠ 0 → effLen s 3 2 = min (10 - 3) (max 2 4)) ∧
    (effLen s 3 2 < 0 → ReadAtWithLength client s [0, 0] 3 2 = ⟨0, some RError.eof, [0, 0], s, []⟩) ∧
    ((ReadAtWithLength client s [0, 0] 3 2).reqs = [] ∨
      (ReadAtWithLength client s [0, 0] 3 2).reqs = [mkRangeReq 3 (effLen s 3 2)]) ∧
    ((3 : Int) ≤ 10 → (ReadAtWithLength client s [0, 0] 3 2).n ≤ 10 - 3) := by
  intro client s
  exact C2_amplify_clamp client s [0, 0] 3 2 10 rfl (by decide)

/-- C6: on a cache miss (with non-negative offset and a non-negative clamped
length) the dispatched request is a GET whose Range header is
`bytes=off-(off+E-1)` for the effective length `E`; absent a known size `E`
equals `max length0 MinFetch`, hence equals `MinFetch` whenever
`length0 < MinFetch`; and a zero effective length produces the single-byte
probe `bytes=off-off`. -/
theorem C6_amplified_range_header :
    ∀ (client : Request → Option Response) (s : SeekingHTTP) (buf : List Nat)
      (off length0 : Int),
      0 ≤ off → s.MinFetch ≠ 0 →
      isCacheHit s off (effLen s off length0) = false →
      ¬ (s.KnownSize.isSome ∧ effLen s off length0 < 0) →
      (ReadAtWithLength client s buf off length0).reqs =
        [{ method := "GET", rangeHeader := some (fmtRange off (effLen s off length0)) }] ∧
      (s.KnownSize = none → effLen s off length0 = max length0 s.MinFetch) ∧
      (s.KnownSize = none → length0 < s.MinFetch → effLen s off length0 = s.MinFetch) ∧
      (effLen s off length0 ≠ 0 →
        fmtRange off (effLen s off length0) =
          "bytes=" ++ toString off ++ "-" ++ toString (off + (effLen s off length0 - 1))) ∧
      (effLen s off length0 = 0 →
        fmtRange off (effLen s off length0) = "bytes=" ++ toString off ++ "-" ++ toString off) := by
  intro client s buf off length0 h0 hM hmiss hcl
  refine ⟨?_, ?_, ?_, ?_, ?_⟩
  · rw [ReadAtWithLength_eq_dispatch (not_lt.2 h0) hcl hmiss]
    exact dispatchFetch_reqs client s buf off _
  · intro hK
    simp [effLen, hK, hM]
  · intro hK hLM
    simp [effLen, hK, hM, max_eq_right (le_of_lt hLM)]
  · intro hne
    simp [fmtRange, hne]
  · intro hz
    simp [fmtRange, hz]

/-- C6 witness: `MinFetch = 100`, requested length `2 < 100`, no known size:
the dispatched header is `bytes=5-104`. -/
theorem C6_witness :
    let client : Request → Option Response := fun _ => some ⟨206, 0, []⟩
    let s : SeekingHTTP := ⟨"u", 100, none, 0, none, 0⟩
    (ReadAtWithLength client s [0, 0] 5 2).reqs =
      [{ method := "GET", rangeHeader := some (fmtRange 5 (effLen s 5 2)) }] ∧
    (s.KnownSize = none → effLen s 5 2 = max 2 100) ∧
    (s.KnownSize = none → (2 : Int) < 100 → effLen s 5 2 = 100) ∧
    (effLen s 5 2 ≠ 0 →
      fmtRange 5 (effLen s 5 2) =
        "bytes=" ++ toString (5 : Int) ++ "-" ++ toString ((5 : Int) + (effLen s 5 2 - 1))) ∧
    (effLen s 5 2 = 0 →
      fmtRange 5 (effLen s 5 2) = "bytes=" ++ toString (5 : Int) ++ "-" ++ toString (5 : Int)) := by
  intro client s
  exact C6_amplified_range_header client s [0, 0] 5 2 (by decide) (by decide) (by decide) (by decide)

/-- C3 counterexample: a 206 response with the content-length header absent
(modelled, per the transport interface contract, as the negative sentinel
`-1`) and a one-byte body produces the content-length-mismatch hard error —
the code does not fall back to the number of bytes read, so the call does not
succeed. -/
theorem C3_counterexample :
    (ReadAtWithLength (fun _ => some ⟨206, -1, [7]⟩) ⟨"u", 0, none, 0, none, 0⟩ [0] 0 1).err =
      some (RError.contentLengthMismatch 1 (-1)) ∧
    (ReadAtWithLength (fun _ => some ⟨206, -1, [7]⟩) ⟨"u", 0, none, 0, none, 0⟩ [0] 0 1).n = 0 := by
  decide

/-- C3 amended: on a success-status response, a non-zero content-length
(including the negative absent sentinel) disagreeing with the body length is
a hard error; only a content-length of exactly zero triggers the fallback to
the number of bytes actually read, with the call succeeding. -/
theorem C3_amended_content_length :
    ∀ (client : Request → Option Response) (s : SeekingHTTP) (buf : List Nat)
      (off length0 : Int) (resp : Response),
      0 ≤ off →
      isCacheHit s off (effLen s off length0) = false →
      ¬ (s.KnownSize.isSome ∧ effLen s off length0 < 0) →
      client (mkRangeReq off (effLen s off length0)) = some resp →
      (resp.statusCode = 200 ∨ resp.statusCode = 206) →
      (resp.contentLength ≠ 0 → (resp.body.length : Int) ≠ resp.contentLength →
        (ReadAtWithLength client s buf off length0).err =
          some (RError.contentLengthMismatch (resp.body.length : Int) resp.contentLength)) ∧
      (resp.contentLength = 0 →
        (ReadAtWithLength client s buf off length0).err = none ∧
        (ReadAtWithLength client s buf off length0).n =
          min (min (resp.body.length : Int) (effLen s off length0)) (buf.length : Int)) := by
  intro client s buf off length0 resp h0 hmiss hcl hc hok
  rw [ReadAtWithLength_eq_dispatch (not_lt.2 h0) hcl hmiss]
  constructor
  · intro hCL hne
    simp only [dispatchFetch, hc]
    rw [if_pos hok, if_neg hCL, if_pos hne]
  · intro hCL0
    simp only [dispatchFetch, hc]
    rw [if_pos hok, if_pos hCL0]
    exact ⟨rfl, rfl⟩

/-- C3 amended witness: a zero content-length with a two-byte body falls back
and succeeds. -/
theorem C3_witness :
    let client : Request → Option Response := fun _ => some ⟨206, 0, [7, 7]⟩
    let s : SeekingHTTP := ⟨"u", 0, none, 0, none, 0⟩
    ((0 : Int) ≠ 0 → ((([7, 7] : List Nat).length : Int)) ≠ 0 →
      (ReadAtWithLength client s [0] 0 2).err =
        some (RError.contentLengthMismatch (([7, 7] : List Nat).length : Int) 0)) ∧
    ((0 : Int) = 0 →
      (ReadAtWithLength client s [0] 0 2).err = none ∧
      (ReadAtWithLength client s [0] 0 2).n =
        min (min (([7, 7] : List Nat).length : Int) (effLen s 0 2)) (([0] : List Nat).length : Int)) := by
  intro client s
  exact C3_amended_content_length client s [0] 0 2 ⟨206, 0, [7, 7]⟩
    (by decide) (by decide) (by decide) rfl (by decide)

theorem Seek_start (client : Request → Option Response) (s : SeekingHTTP) (offset : Int) :
    Seek client s offset 0 = ⟨offset, none, { s with offset := offset }, []⟩ := rfl

theorem Seek_current (client : Request → Option Response) (s : SeekingHTTP) (offset : Int) :
    Seek client s offset 1 = ⟨s.offset + offset, none, { s with offset := s.offset + offset }, []⟩ := rfl

theorem Seek_end_known {client : Request → Option Response} {s : SeekingHTTP} {offset S : Int}
    (hS : s.KnownSize = some S) :
    Seek client s offset 2 =
      (if S + offset > S ∨ S + offset < 0 then
        ⟨0, some RError.eof, { s with offset := S + offset }, []⟩
      else ⟨S + offset, none, { s with offset := S + offset }, []⟩) := by
  show (match s.KnownSize with
    | some length =>
      if length + offset > length ∨ length + offset < 0 then
        (⟨0, some RError.eof, { s with offset := length + offset }, []⟩ : SeekResult)
      else ⟨length + offset, none, { s with offset := length + offset }, []⟩
    | none =>
      match (Size client s).err with
      | some e => ⟨0, some e, (Size client s).state, (Size client s).reqs⟩
      | none =>
        if (Size client s).n + offset > (Size client s).n ∨ (Size client s).n + offset < 0 then
          ⟨0, some RError.eof, { (Size client s).state with offset := (Size client s).n + offset },
            (Size client s).reqs⟩
        else ⟨(Size client s).n + offset, none,
          { (Size client s).state with offset := (Size client s).n + offset }, (Size client s).reqs⟩) = _
  rw [hS]

theorem Seek_end_unknown {client : Request → Option Response} {s : SeekingHTTP} {offset : Int}
    (hS : s.KnownSize = none) :
    Seek client s offset 2 =
      (match (Size client s).err with
      | some e => ⟨0, some e, (Size client s).state, (Size client s).reqs⟩
      | none =>
        if (Size client s).n + offset > (Size client s).n ∨ (Size client s).n + offset < 0 then
          ⟨0, some RError.eof, { (Size client s).state with offset := (Size client s).n + offset },
            (Size client s).reqs⟩
        else ⟨(Size client s).n + offset, none,
          { (Size client s).state with offset := (Size client s).n + offset }, (Size client s).reqs⟩) := by
  show (match s.KnownSize with
    | some length =>
      if length + offset > length ∨ length + offset < 0 then
        (⟨0, some RError.eof, { s with offset := length + offset }, []⟩ : SeekResult)
      else ⟨length + offset, none, { s with offset := length + offset }, []⟩
    | none =>
      match (Size client s).err with
      | some e => ⟨0, some e, (Size client s).state, (Size client s).reqs⟩
      | none =>
        if (Size client s).n + offset > (Size client s).n ∨ (Size client s).n + offset < 0 then
          ⟨0, some RError.eof, { (Size client s).state with offset := (Size client s).n + offset },
            (Size client s).reqs⟩
        else ⟨(Size client s).n + offset, none,
          { (Size client s).state with offset := (Size client s).n + offset }, (Size client s).reqs⟩) = _
  rw [hS]

/-- C4 counterexample: with known size 10 and cursor 3, `Seek(5, from-end)`
fails with `io.EOF` but the cursor has been overwritten with the out-of-range
value 15 — it does not keep its previous value 3. -/
theorem C4_counterexample :
    (Seek (fun _ => none) ⟨"u", 0, some 10, 3, none, 0⟩ 5 2).err = some RError.eof ∧
    (Seek (fun _ => none) ⟨"u", 0, some 10, 3, none, 0⟩ 5 2).n = 0 ∧
    (Seek (fun _ => none) ⟨"u", 0, some 10, 3, none, 0⟩ 5 2).state.offset = 15 := by
  decide

/-- C4 amended: whenever the from-end size resolution succeeds with total
size `S` — from the stored known size or from the HEAD probe, i.e. whenever
`Size` returns `S` without error — an out-of-range `Seek(offset, from-end)`
returns `(0, io.EOF)` but leaves the internal cursor at the out-of-range
value `S + offset`, which is the position the next `Read` will use. -/
theorem C4_amended_seek_end :
    ∀ (client : Request → Option Response) (s : SeekingHTTP) (offset S : Int),
      (Size client s).err = none → (Size client s).n = S →
      (S + offset > S ∨ S + offset < 0) →
      (Seek client s offset 2).n = 0 ∧
      (Seek client s offset 2).err = some RError.eof ∧
      (Seek client s offset 2).state.offset = S + offset := by
  intro client s offset S herr hn hout
  cases hK : s.KnownSize with
  | some S0 =>
    have hS0 : S0 = S := by
      have h1 : (Size client s).n = S0 := by simp [Size, hK]
      omega
    have hK2 : s.KnownSize = some S := by rw [hK, hS0]
    rw [Seek_end_known hK2, if_pos hout]
    exact ⟨rfl, rfl, rfl⟩
  | none =>
    rw [Seek_end_unknown hK]
    simp only [herr]
    rw [hn, if_pos hout]
    exact ⟨rfl, rfl, rfl⟩

/-- C4 amended witness: the size 10 is resolved through the HEAD probe (no
pre-known size); the failed from-end seek reports `io.EOF` with the cursor
clobbered to 15. -/
theorem C4_witness :
    (Seek (fun _ => some ⟨200, 10, []⟩) ⟨"u", 0, none, 3, none, 0⟩ 5 2).n = 0 ∧
    (Seek (fun _ => some ⟨200, 10, []⟩) ⟨"u", 0, none, 3, none, 0⟩ 5 2).err = some RError.eof ∧
    (Seek (fun _ => some ⟨200, 10, []⟩) ⟨"u", 0, none, 3, none, 0⟩ 5 2).state.offset = 10 + 5 :=
  C4_amended_seek_end (fun _ => some ⟨200, 10, []⟩) ⟨"u", 0, none, 3, none, 0⟩ 5 10
    (by decide) (by decide) (by decide)

/-- C5 counterexample: `Seek(-1, from-start)` succeeds (no error) and leaves
the cursor at the negative value `-1`, contradicting the claimed invariant
that every successful `Seek` ends with a non-negative cursor. -/
theorem C5_counterexample :
    (Seek (fun _ => none) ⟨"u", 0, none, 0, none, 0⟩ (-1) 0).err = none ∧
    (Seek (fun _ => none) ⟨"u", 0, none, 0, none, 0⟩ (-1) 0).state.offset = -1 ∧
    (Seek (fun _ => none) ⟨"u", 0, none, 0, none, 0⟩ (-1) 0).n = -1 := by
  decide

/-- C5 amended: only from-end seeks enforce the bound — a successful
`Seek(offset, from-end)` always leaves a non-negative cursor — while
from-start seeks perform no check at all: they always succeed and set the
cursor to exactly the requested offset, negative or not. -/
theorem C5_amended_cursor :
    ∀ (client : Request → Option Response) (s : SeekingHTTP) (offset : Int),
      ((Seek client s offset 2).err = none → 0 ≤ (Seek client s offset 2).state.offset) ∧
      ((Seek client s offset 0).err = none ∧ (Seek client s offset 0).state.offset = offset) := by
  intro client s offset
  constructor
  · cases hK : s.KnownSize with
    | some S =>
      rw [Seek_end_known hK]
      split
      · intro h
        simp at h
      · next hout =>
        intro _
        simp only [not_or, not_lt] at hout
        simpa using hout.2
    | none =>
      rw [Seek_end_unknown hK]
      split
      · intro h
        simp at h
      · split
        · intro h
          simp at h
        · next hout =>
          intro _
          simp only [not_or, not_lt] at hout
          simpa using hout.2
  · rw [Seek_start]
    exact ⟨rfl, rfl⟩

/-- C5 amended witness: a successful from-end seek lands at 7 ≥ 0, and the
unchecked from-start seek sets the cursor verbatim. -/
theorem C5_witness :
    (0 ≤ (Seek (fun _ => none) ⟨"u", 0, some 10, 0, none, 0⟩ (-3) 2).state.offset) ∧
    ((Seek (fun _ => none) ⟨"u", 0, some 10, 0, none, 0⟩ (-3) 0).err = none ∧
      (Seek (fun _ => none) ⟨"u", 0, some 10, 0, none, 0⟩ (-3) 0).state.offset = -3) :=
  ⟨(C5_amended_cursor (fun _ => none) ⟨"u", 0, some 10, 0, none, 0⟩ (-3)).1 (by decide),
    (C5_amended_cursor (fun _ => none) ⟨"u", 0, some 10, 0, none, 0⟩ (-3)).2⟩

/-- C1 counterexample: `MinFetch = 100`, empty cache.  A first `ReadAt` of 10
bytes at offset 0 fetches (and windows) the amplified range `[0, 100)`; a
second `ReadAt` of 5 bytes at offset 5 has both its requested range `[5, 10)`
and the range of the first call inside the fetched `[0, 100)` window, yet its
amplified effective range `[5, 105)` overflows the window, so it dispatches a
second transport request: two invocations in total, not one. -/
theorem C1_counterexample :
    let client : Request → Option Response := fun _ => some ⟨206, 100, List.replicate 100 7⟩
    let s0 : SeekingHTTP := ⟨"u", 100, none, 0, none, 0⟩
    let r1 := ReadAt client s0 (List.replicate 10 0) 0
    let r2 := ReadAt client r1.state (List.replicate 5 0) 5
    r1.err = none ∧ r1.state.lastOffset = 0 ∧ (r1.state.last.getD []).length = 100 ∧
    r2.err = none ∧ r1.reqs.length + r2.reqs.length = 2 := by
  decide

/-- C1 amended: (a) with a cache window present and the pre-dispatch guards
passed, a positional read performs no transport invocation exactly when its
EFFECTIVE range `[off, off + effLen)` (after amplification and clamping) is
contained in the window — any lesser overlap dispatches a request; (b) two
consecutive `ReadAt` calls where the effective range of the second call is
contained in the window established by the first call perform exactly one
transport invocation in total. -/
theorem C1_amended_cache_hit :
    (∀ (client : Request → Option Response) (s : SeekingHTTP) (buf : List Nat)
      (off length0 : Int) (w : List Nat),
      0 ≤ off → s.last = some w →
      ¬ (s.KnownSize.isSome ∧ effLen s off length0 < 0) →
      ((ReadAtWithLength client s buf off length0).reqs = [] ↔
        (s.lastOffset ≤ off ∧ off + effLen s off length0 ≤ s.lastOffset + (w.length : Int)))) ∧
    (∀ (client : Request → Option Response) (s0 : SeekingHTTP) (buf1 buf2 : List Nat)
      (off1 off2 : Int) (w : List Nat),
      (ReadAt client s0 buf1 off1).reqs.length = 1 →
      (ReadAt client s0 buf1 off1).state.last = some w →
      0 ≤ off2 →
      ¬ ((ReadAt client s0 buf1 off1).state.KnownSize.isSome ∧
          effLen (ReadAt client s0 buf1 off1).state off2 (buf2.length : Int) < 0) →
      (ReadAt client s0 buf1 off1).state.lastOffset ≤ off2 →
      off2 + effLen (ReadAt client s0 buf1 off1).state off2 (buf2.length : Int) ≤
        (ReadAt client s0 buf1 off1).state.lastOffset + (w.length : Int) →
      (ReadAt client s0 buf1 off1).reqs.length +
        (ReadAt client (ReadAt client s0 buf1 off1).state buf2 off2).reqs.length = 1) := by
  have partA : ∀ (client : Request → Option Response) (s : SeekingHTTP) (buf : List Nat)
      (off length0 : Int) (w : List Nat),
      0 ≤ off → s.last = some w →
      ¬ (s.KnownSize.isSome ∧ effLen s off length0 < 0) →
      ((ReadAtWithLength client s buf off length0).reqs = [] ↔
        (s.lastOffset ≤ off ∧ off + effLen s off length0 ≤ s.lastOffset + (w.length : Int))) := by
    intro client s buf off length0 w h0 hw hcl
    by_cases hhit : isCacheHit s off (effLen s off length0) = true
    · rw [ReadAtWithLength_eq_hit (not_lt.2 h0) hcl hhit]
      constructor
      · intro _
        exact (isCacheHit_some hw).mp hhit
      · intro _
        rfl
    · have hmiss : isCacheHit s off (effLen s off length0) = false := Bool.eq_false_iff.mpr hhit
      rw [ReadAtWithLength_eq_dispatch (not_lt.2 h0) hcl hmiss, dispatchFetch_reqs]
      constructor
      · intro h
        simp at h
      · intro hcont
        exact absurd ((isCacheHit_some hw).mpr hcont) hhit
  refine ⟨partA, ?_⟩
  intro client s0 buf1 buf2 off1 off2 w h1len hw h02 hcl hle hcont
  have h2 : (ReadAtWithLength client (ReadAt client s0 buf1 off1).state buf2 off2
      (buf2.length : Int)).reqs = [] :=
    (partA client (ReadAt client s0 buf1 off1).state buf2 off2 (buf2.length : Int) w
      h02 hw hcl).mpr ⟨hle, hcont⟩
  rw [ReadAt_reqs client (ReadAt client s0 buf1 off1).state buf2 off2, h2, h1len]
  rfl

/-- C1 amended witness: with `MinFetch = 0` (so the effective
range is its requested range) a second read inside the window of the first
fetch performs no further transport invocation: one invocation total. -/
theorem C1_witness :
    let client : Request → Option Response := fun _ => some ⟨206, 10, List.replicate 10 7⟩
    let s1 : SeekingHTTP := ⟨"u", 0, none, 0, some (List.replicate 10 7), 0⟩
    let s0 : SeekingHTTP := ⟨"u", 0, none, 0, none, 0⟩
    ((ReadAtWithLength client s1 (List.replicate 5 0) 3 5).reqs = [] ↔
      (s1.lastOffset ≤ 3 ∧ 3 + effLen s1 3 5 ≤ s1.lastOffset + ((List.replicate 10 7).length : Int))) ∧
    ((ReadAt client s0 (List.replicate 10 0) 0).reqs.length +
      (ReadAt client (ReadAt client s0 (List.replicate 10 0) 0).state
        (List.replicate 5 0) 3).reqs.length = 1) := by
  intro client s1 s0
  exact ⟨C1_amended_cache_hit.1 client s1 (List.replicate 5 0) 3 5 (List.replicate 10 7)
      (by decide) rfl (by decide),
    C1_amended_cache_hit.2 client s0 (List.replicate 10 0) (List.replicate 5 0) 0 3
      (List.replicate 10 7) (by decide) (by decide) (by decide) (by decide) (by decide) (by decide)⟩

/-- C9 counterexample: known size 10, `Seek(0, from-end)` succeeds, but the
response to the boundary probe carries content-length 5 with a 1-byte body, so the
following `Read` fails with the content-length-mismatch hard error — not with
end-of-data as the claim requires for every transport response. -/
theorem C9_counterexample :
    let client : Request → Option Response := fun _ => some ⟨206, 5, [7]⟩
    let s0 : SeekingHTTP := ⟨"u", 1048576, some 10, 0, none, 0⟩
    let r1 := Seek client s0 0 2
    let r2 := Read client r1.state (List.replicate 3 0)
    r1.err = none ∧ 0 < (List.replicate 3 0).length ∧ r2.n = 0 ∧
    r2.err = some (RError.contentLengthMismatch 1 5) := by
  decide

theorem dispatchFetch_zero_len {client : Request → Option Response} {s : SeekingHTTP}
    {buf : List Nat} {off : Int}
    (hwf : ∀ req resp, client req = some resp →
      resp.contentLength = 0 ∨ resp.contentLength = (resp.body.length : Int))
    (htot : ∀ req, client req ≠ none) :
    (dispatchFetch client s buf off 0).n = 0 ∧
    ((dispatchFetch client s buf off 0).err = none ∨
      (dispatchFetch client s buf off 0).err = some RError.eof) := by
  cases hc : client (mkRangeReq off 0) with
  | none => exact absurd hc (htot _)
  | some resp =>
    simp only [dispatchFetch, hc]
    split
    · rcases hwf _ _ hc with hCL | hCL
      · rw [if_pos hCL]
        refine ⟨?_, Or.inl rfl⟩
        show min (min ((resp.body.length : Nat) : Int) 0) ((buf.length : Nat) : Int) = 0
        omega
      · by_cases hCL0 : resp.contentLength = 0
        · rw [if_pos hCL0]
          refine ⟨?_, Or.inl rfl⟩
          show min (min ((resp.body.length : Nat) : Int) 0) ((buf.length : Nat) : Int) = 0
          omega
        · rw [if_neg hCL0, if_neg (fun h => h hCL.symm)]
          refine ⟨?_, Or.inl rfl⟩
          show min (min resp.contentLength 0) ((buf.length : Nat) : Int) = 0
          omega
    · exact ⟨rfl, Or.inr rfl⟩

theorem ReadAtWithLength_zero_eff {client : Request → Option Response} {s : SeekingHTTP}
    {buf : List Nat} {off length0 : Int}
    (h0 : 0 ≤ off) (hE : effLen s off length0 = 0)
    (hwf : ∀ req resp, client req = some resp →
      resp.contentLength = 0 ∨ resp.contentLength = (resp.body.length : Int))
    (htot : ∀ req, client req ≠ none) :
    (ReadAtWithLength client s buf off length0).n = 0 ∧
    ((ReadAtWithLength client s buf off length0).err = none ∨
      (ReadAtWithLength client s buf off length0).err = some RError.eof) := by
  by_cases hhit : isCacheHit s off (effLen s off length0) = true
  · rw [ReadAtWithLength_eq_hit (not_lt.2 h0) (by simp [hE]) hhit]
    refine ⟨?_, Or.inl rfl⟩
    show min ((buf.length : Nat) : Int) (effLen s off length0) = 0
    rw [hE]
    omega
  · rw [ReadAtWithLength_eq_dispatch (not_lt.2 h0) (by simp [hE])
      (Bool.eq_false_iff.mpr hhit), hE]
    exact dispatchFetch_zero_len hwf htot

theorem Size_KnownSize (client : Request → Option Response) (s : SeekingHTTP) :
    (Size client s).err ≠ none ∨
      (Size client s).state.KnownSize = some ((Size client s).n) := by
  cases hK : s.KnownSize with
  | some S0 =>
    right
    simp [Size, hK]
  | none =>
    cases hc : client { method := "HEAD", rangeHeader := none } with
    | none =>
      left
      simp [Size, hK, hc]
    | some resp =>
      by_cases hCL : resp.contentLength < 0
      · left
        simp [Size, hK, hc, hCL]
      · right
        simp [Size, hK, hc, hCL]

theorem dispatchFetch_zero_n (client : Request → Option Response) (s : SeekingHTTP)
    (buf : List Nat) (off : Int) :
    (dispatchFetch client s buf off 0).n = 0 := by
  cases hc : client (mkRangeReq off 0) with
  | none => simp [dispatchFetch, hc]
  | some resp =>
    simp only [dispatchFetch, hc]
    split
    · split
      · show min (min ((resp.body.length : Nat) : Int) 0) ((buf.length : Nat) : Int) = 0
        omega
      · split
        · rfl
        · next hne =>
          have hEq : ((resp.body.length : Nat) : Int) = resp.contentLength := not_not.mp hne
          show min (min resp.contentLength 0) ((buf.length : Nat) : Int) = 0
          omega
    · rfl

theorem ReadAtWithLength_zero_n (client : Request → Option Response) (s : SeekingHTTP)
    (buf : List Nat) (off length0 : Int)
    (h0 : 0 ≤ off) (hE : effLen s off length0 = 0) :
    (ReadAtWithLength client s buf off length0).n = 0 := by
  by_cases hhit : isCacheHit s off (effLen s off length0) = true
  · rw [ReadAtWithLength_eq_hit (not_lt.2 h0) (by simp [hE]) hhit, cacheHitResult_n, hE]
    omega
  · rw [ReadAtWithLength_eq_dispatch (not_lt.2 h0) (by simp [hE])
      (Bool.eq_false_iff.mpr hhit), hE]
    exact dispatchFetch_zero_n client s buf off

theorem Read_at_end (client : Request → Option Response) (s2 : SeekingHTTP)
    (buf : List Nat) (S : Int)
    (hK : s2.KnownSize = some S) (hoff : s2.offset = S + 0)
    (h0S : 0 ≤ S) (hbuf : 0 < buf.length) :
    (Read client s2 buf).n = 0 ∧
    ((∀ req resp, client req = some resp →
        resp.contentLength = 0 ∨ resp.contentLength = (resp.body.length : Int)) →
      (∀ req, client req ≠ none) →
      (Read client s2 buf).err = some RError.eof) := by
  have h0off : 0 ≤ s2.offset := by omega
  have hE : effLen s2 s2.offset (buf.length : Int) = 0 := by
    simp only [effLen, hK]
    split
    · omega
    · omega
  have hn0 : (ReadAtWithLength client s2 buf s2.offset (buf.length : Int)).n = 0 :=
    ReadAtWithLength_zero_n client s2 buf s2.offset (buf.length : Int) h0off hE
  have hra_n : (ReadAt client s2 buf s2.offset).n = 0 := by
    simp only [ReadAt]
    rw [hn0]
    omega
  constructor
  · simp only [Read]
    split
    · exact hra_n
    · exact hra_n
  · intro hwf htot
    have hmain := @ReadAtWithLength_zero_eff client s2 buf s2.offset
        ((buf.length : Nat) : Int) h0off hE hwf htot
    have hra_err : (ReadAt client s2 buf s2.offset).err = some RError.eof := by
      simp only [ReadAt]
      rcases hmain.2 with h | h
      · rw [hmain.1, h, if_pos ⟨by omega, rfl⟩]
      · rw [h]
        rw [if_neg (fun hcond => by simpa using hcond.2)]
    simp only [Read]
    split
    · exact hra_err
    · exact hra_err

/-- C9 amended: whenever the total size resolves to `S ≥ 0` — from the stored
known size or from the HEAD probe, i.e. whenever `Size` returns `S` without
error — `Seek(0, from-end)` succeeds at `S`, and a following `Read` into any
positive-length buffer returns zero bytes no matter what the transport
answers for the boundary probe; the error is `io.EOF` whenever the transport
answers every request with a response whose content-length is consistent
(zero, or equal to its body length).  The error need not be end-of-data
otherwise: in the counterexample an inconsistent response surfaces the
content-length-mismatch hard error, still with zero bytes. -/
theorem C9_amended_seek_end_read :
    ∀ (client : Request → Option Response) (s : SeekingHTTP) (buf : List Nat) (S : Int),
      (Size client s).err = none → (Size client s).n = S → 0 ≤ S → 0 < buf.length →
      (Seek client s 0 2).err = none ∧ (Seek client s 0 2).n = S ∧
      (Read client (Seek client s 0 2).state buf).n = 0 ∧
      ((∀ req resp, client req = some resp →
          resp.contentLength = 0 ∨ resp.contentLength = (resp.body.length : Int)) →
        (∀ req, client req ≠ none) →
        (Read client (Seek client s 0 2).state buf).err = some RError.eof) := by
  intro client s buf S herr hn h0S hbuf
  have hchar : (Seek client s 0 2).err = none ∧ (Seek client s 0 2).n = S ∧
      (Seek client s 0 2).state.KnownSize = some S ∧
      (Seek client s 0 2).state.offset = S + 0 := by
    cases hK : s.KnownSize with
    | some S0 =>
      have hS0 : S0 = S := by
        have h1 : (Size client s).n = S0 := by simp [Size, hK]
        omega
      have hK2 : s.KnownSize = some S := by rw [hK, hS0]
      rw [Seek_end_known hK2, if_neg (by omega)]
      refine ⟨rfl, ?_, hK2, rfl⟩
      show S + 0 = S
      omega
    | none =>
      rcases Size_KnownSize client s with h | hsz
      · exact absurd herr h
      · rw [Seek_end_unknown hK]
        simp only [herr]
        rw [hn, if_neg (by omega)]
        refine ⟨rfl, ?_, ?_, rfl⟩
        · show S + 0 = S
          omega
        · show (Size client s).state.KnownSize = some S
          rw [hsz, hn]
  obtain ⟨he, hnn, hKs, hoffs⟩ := hchar
  have hread := Read_at_end client (Seek client s 0 2).state buf S hKs hoffs h0S hbuf
  exact ⟨he, hnn, hread.1, hread.2⟩

/-- C9 amended witness: the size 1 is resolved through the HEAD probe (no
pre-known size); the transport is consistent, so `Read` after
`Seek(0, from-end)` yields `(0, io.EOF)` — the inner consistency hypotheses
are discharged concretely as well. -/
theorem C9_witness :
    let client : Request → Option Response := fun _ => some ⟨206, 1, [7]⟩
    let s0 : SeekingHTTP := ⟨"u", 4, none, 0, none, 0⟩
    (Seek client s0 0 2).err = none ∧ (Seek client s0 0 2).n = 1 ∧
    (Read client (Seek client s0 0 2).state (List.replicate 3 0)).n = 0 ∧
    (Read client (Seek client s0 0 2).state (List.replicate 3 0)).err = some RError.eof := by
  intro client s0
  have h := C9_amended_seek_end_read client s0 (List.replicate 3 0) 1
    (by decide) (by decide) (by decide) (by decide)
  exact ⟨h.1, h.2.1, h.2.2.1,
    h.2.2.2
      (fun req resp hc => by
        cases hc
        right
        decide)
      (fun req hc => by cases hc)⟩
